import Mathlib

/-!
Shallow embedding of the dhm (Dependency Health Monitor) core:
the health-scoring engine (src/dhm/core/calculator.py), the data model
(src/dhm/core/models.py) and the requirements-file parsing layer
(src/dhm/core/resolver.py), together with theorems checking the
natural-language specification against this embedding.

Modelling conventions:
  - Python floats are modelled as exact rationals; the license/score
    arithmetic of the source only involves short decimal literals.
  - Python strings are modelled as Lean String, with the character-level
    operations (strip, split, replace with single-character arguments,
    lower/upper on ASCII input) hand-rolled over List Char so that every
    definition evaluates inside the kernel.
  - math.log10 (an external library function) is passed as an explicit
    function parameter to the logarithmic normalizer; no claim below
    depends on its values.
  - The file system seen by the requirements parser is a finite
    association list from canonical absolute paths to file contents, and
    the Python call stack is an explicit fuel parameter: fuel zero models
    the interpreter raising RecursionError.
-/

/-- RiskLevel enum from models.py (five ordered severity levels). -/
inductive RiskLevel where
  | critical
  | high
  | medium
  | low
  | info
  deriving DecidableEq, Repr

/-- The string payload of each RiskLevel enum member (its .value). -/
def RiskLevel.value : RiskLevel → String
  | .critical => "critical"
  | .high => "high"
  | .medium => "medium"
  | .low => "low"
  | .info => "info"

/-- Python RiskLevel(value) enum lookup: none models the ValueError raised
on an unrecognized value. -/
def RiskLevel.ofValue (s : String) : Option RiskLevel :=
  if s = "critical" then some .critical
  else if s = "high" then some .high
  else if s = "medium" then some .medium
  else if s = "low" then some .low
  else if s = "info" then some .info
  else none

/-- HealthGrade enum from models.py. -/
inductive HealthGrade where
  | A
  | B
  | C
  | D
  | F
  deriving DecidableEq, Repr

/-- The string payload of each HealthGrade member (its .value). -/
def HealthGrade.value : HealthGrade → String
  | .A => "A"
  | .B => "B"
  | .C => "C"
  | .D => "D"
  | .F => "F"

/-- MaintenanceStatus enum from models.py. -/
inductive MaintenanceStatus where
  | active
  | stable
  | slow
  | minimal
  | abandoned
  | archived
  | deprecated
  deriving DecidableEq, Repr

/-- The string payload of each MaintenanceStatus member (its .value). -/
def MaintenanceStatus.value : MaintenanceStatus → String
  | .active => "active"
  | .stable => "stable"
  | .slow => "slow"
  | .minimal => "minimal"
  | .abandoned => "abandoned"
  | .archived => "archived"
  | .deprecated => "deprecated"

/-- ConfidenceLevel enum from models.py. -/
inductive ConfidenceLevel where
  | high
  | medium
  | low
  deriving DecidableEq, Repr

/-- PackageIdentifier dataclass from models.py: name, optional version,
extras tuple (modelled as a list of strings). -/
structure PackageIdentifier where
  name : String
  version : Option String := none
  extras : List String := []
  deriving DecidableEq, Repr

/-- Vulnerability dataclass from models.py. datetime fields are modelled
as ISO-format strings (isoformat and fromisoformat become the identity on
values produced by the program itself); cvss_score is an exact rational. -/
structure Vulnerability where
  id : String
  severity : RiskLevel
  title : String
  description : String
  affected_versions : String
  fixed_version : Option String := none
  published : Option String := none
  references : List String := []
  cvss_score : Option ℚ := none
  is_fixed_in_installed_version : Bool := false
  deriving DecidableEq, Repr

/-- Vulnerability.is_open property: NOT is_fixed_in_installed_version. -/
def Vulnerability.is_open (v : Vulnerability) : Bool :=
  !v.is_fixed_in_installed_version

/-- PyPIMetadata from models.py. Only the fields read by the embedded
operations below are modelled; the remaining fields of the dataclass do
not influence any claim in scope. -/
structure PyPIMetadata where
  license : Option String := none
  deriving DecidableEq, Repr

/-- RepositoryMetadata from models.py, restricted to the fields read by
the embedded operations below. -/
structure RepositoryMetadata where
  license : Option String := none
  deriving DecidableEq, Repr

/-- Python truthiness of an optional string (None and the empty string
are falsy). -/
def strTruthy : Option String → Bool
  | none => false
  | some s => !(s = "")

/-- Python `a or b` on optional strings: the first operand when truthy,
otherwise the second. -/
def pyOrStr (a b : Option String) : Option String :=
  if strTruthy a then a else b

/-- Lowercase a character the way str.lower acts on ASCII input. -/
def pyLowerChar (c : Char) : Char := c.toLower

/-- Python str.lower, modelled characterwise (ASCII input). -/
def pyLower (s : String) : String :=
  String.mk (s.toList.map pyLowerChar)

/-- Python str.upper, modelled characterwise (ASCII input). -/
def pyUpper (s : String) : String :=
  String.mk (s.toList.map Char.toUpper)

/-- Python str.replace with single-character pattern and replacement,
which substitutes characterwise. -/
def pyReplaceChar (s : String) (a b : Char) : String :=
  String.mk (s.toList.map (fun c => if c = a then b else c))

/-- PackageIdentifier.normalized_name from models.py:
`self.name.lower().replace("_", "-")`. -/
def PackageIdentifier.normalizedName (p : PackageIdentifier) : String :=
  pyReplaceChar (pyLower p.name) '_' '-'

/-- Modelled from the spec words for claim C7 only (refinement target, not
source code): lowercase name with every run of underscores and dots
collapsed to a single hyphen. -/
def specNormalizedName (p : PackageIdentifier) : String :=
  String.mk (collapse false ((pyLower p.name).toList))
where
  collapse : Bool → List Char → List Char
    | _, [] => []
    | inRun, c :: rest =>
      if c = '_' ∨ c = '.' then
        if inRun then collapse true rest else '-' :: collapse true rest
      else
        c :: collapse false rest

/-- HealthCalculator.VULN_DEDUCTIONS from calculator.py, as a total
function: the Python dict lists every RiskLevel member, so the .get
default of 5 is unreachable. -/
def vulnDeduction : RiskLevel → ℚ
  | .critical => 40
  | .high => 25
  | .medium => 10
  | .low => 5
  | .info => 1

/-- HealthCalculator._calculate_security_score from calculator.py: 100
for an empty list, otherwise open vulnerabilities deduct their full
severity weight and fixed ones deduct that weight times 0.1, clamped at
0 from below. -/
def calculateSecurityScore (vulnerabilities : List Vulnerability) : ℚ :=
  if vulnerabilities.isEmpty then 100
  else
    let openVulns := vulnerabilities.filter (fun v => v.is_open)
    let fixedVulns := vulnerabilities.filter (fun v => v.is_fixed_in_installed_version)
    let openDeduction := (openVulns.map (fun v => vulnDeduction v.severity)).sum
    let historicalDeduction := (fixedVulns.map (fun v => vulnDeduction v.severity * (1 / 10))).sum
    max 0 (100 - (openDeduction + historicalDeduction))

/-- HealthCalculator.WEIGHTS default weight dict from calculator.py, as an
insertion-ordered association list. -/
def defaultWeights : List (String × ℚ) :=
  [("security", 35 / 100), ("maintenance", 30 / 100),
   ("community", 20 / 100), ("popularity", 15 / 100)]

/-- Python dict update of a single key: replace in place when the key is
present, append otherwise. -/
def dictSet (d : List (String × ℚ)) (k : String) (v : ℚ) : List (String × ℚ) :=
  match d with
  | [] => [(k, v)]
  | (k₀, v₀) :: rest =>
    if k₀ = k then (k₀, v) :: rest else (k₀, v₀) :: dictSet rest k v

/-- Python dict.update: apply every override in order. -/
def dictUpdate (d : List (String × ℚ)) (overrides : List (String × ℚ)) : List (String × ℚ) :=
  overrides.foldl (fun acc kv => dictSet acc kv.1 kv.2) d

/-- Sum of the values of a weight dict. -/
def dictValuesSum (d : List (String × ℚ)) : ℚ :=
  (d.map (fun kv => kv.2)).sum

/-- The weights dict held by HealthCalculator.__init__ before
normalization: defaults updated with the caller overrides (`if weights:`
skips a falsy empty dict, which changes nothing). -/
def mergedWeights (overrides : List (String × ℚ)) : List (String × ℚ) :=
  if overrides.isEmpty then defaultWeights else dictUpdate defaultWeights overrides

/-- HealthCalculator.__init__ from calculator.py: merge caller overrides
into the default weights, then divide every value by the total, but only
when the total is positive. -/
def initWeights (overrides : List (String × ℚ)) : List (String × ℚ) :=
  let merged := mergedWeights overrides
  let total := dictValuesSum merged
  if 0 < total then merged.map (fun kv => (kv.1, kv.2 / total)) else merged

/-- Embedding of _log_normalize from calculator.py. math.log10 is passed in as an
explicit function parameter (it is an external library function); the
claims below never depend on its values. -/
def logNormalize (log10 : ℚ → ℚ) (value minVal maxVal maxScore : ℚ) : ℚ :=
  if value ≤ minVal then 0
  else if maxVal ≤ value then maxScore
  else
    let logMin := log10 (max minVal 1)
    let logMax := log10 maxVal
    let logVal := log10 (max value 1)
    (logVal - logMin) / (logMax - logMin) * maxScore

/-- Embedding of _linear_normalize from calculator.py. -/
def linearNormalize (value minVal maxVal maxScore : ℚ) : ℚ :=
  if value ≤ minVal then 0
  else if maxVal ≤ value then maxScore
  else (value - minVal) / (maxVal - minVal) * maxScore

/-- HealthCalculator.LICENSE_PERMISSIVE from calculator.py. The Python
value is a set; membership is all the code uses, so list order is
irrelevant (every member yields the same score). -/
def LICENSE_PERMISSIVE : List String :=
  ["MIT", "Apache-2.0", "BSD-2-Clause", "BSD-3-Clause", "ISC", "Unlicense", "0BSD"]

/-- HealthCalculator.LICENSE_COPYLEFT from calculator.py. -/
def LICENSE_COPYLEFT : List String :=
  ["GPL-2.0", "GPL-3.0", "LGPL-2.1", "LGPL-3.0", "AGPL-3.0", "MPL-2.0"]

/-- HealthCalculator.LICENSE_WEAK_COPYLEFT from calculator.py. -/
def LICENSE_WEAK_COPYLEFT : List String :=
  ["LGPL-2.1", "LGPL-3.0", "MPL-2.0"]

/-- Whether the first list begins with the second. -/
def leadsWith : List Char → List Char → Bool
  | _, [] => true
  | [], _ :: _ => false
  | a :: as, b :: bs => a = b && leadsWith as bs

/-- Whether the second list occurs contiguously inside the first
(Python `sub in s` on strings). -/
def containsSeq : List Char → List Char → Bool
  | [], sub => sub.isEmpty
  | hay@(_ :: rest), sub => leadsWith hay sub || containsSeq rest sub

/-- Python `sub in s` on strings. -/
def strContains (hay sub : String) : Bool :=
  containsSeq hay.toList sub.toList

/-- The license-identifier normalization performed by
_calculate_license_score: upper(), then spaces to hyphens, then
underscores to hyphens. -/
def normalizeLicense (s : String) : String :=
  pyReplaceChar (pyReplaceChar (pyUpper s) ' ' '-') '_' '-'

/-- Whether the normalized identifier contains (as a substring) the
uppercased form of any member of the given license set: the for-loop
with early return in _calculate_license_score. -/
def licMatches (licenseId : String) (licenseSet : List String) : Bool :=
  licenseSet.any (fun lic => strContains licenseId (pyUpper lic))

/-- The license-identifier derivation at the top of
_calculate_license_score: repository license when the repository is
present and its license is truthy, else the PyPI license when present and
truthy, else none. -/
def derivedLicense (pypi : Option PyPIMetadata) (repo : Option RepositoryMetadata) : Option String :=
  match repo with
  | some r =>
    if strTruthy r.license then r.license
    else
      match pypi with
      | some p => if strTruthy p.license then p.license else none
      | none => none
  | none =>
    match pypi with
    | some p => if strTruthy p.license then p.license else none
    | none => none

/-- HealthCalculator._calculate_license_score from calculator.py: derive
an identifier, return 30 when falsy, otherwise normalize it and check the
permissive, weak-copyleft and strong-copyleft sets in that order. -/
def calculateLicenseScore (pypi : Option PyPIMetadata) (repo : Option RepositoryMetadata) : ℚ :=
  match derivedLicense pypi repo with
  | none => 30
  | some licenseId =>
    let n := normalizeLicense licenseId
    if licMatches n LICENSE_PERMISSIVE then 100
    else if licMatches n LICENSE_WEAK_COPYLEFT then 75
    else if licMatches n LICENSE_COPYLEFT then 60
    else 50

/-- ASCII whitespace, covering what str.strip and the regex \s class see
in the requirement lines in scope. -/
def isWs (c : Char) : Bool :=
  c = ' ' || c = '\t' || c = '\n' || c = '\r' || c = '\x0b' || c = '\x0c'

/-- Strip leading and trailing whitespace (Python str.strip). -/
def trimChars (l : List Char) : List Char :=
  ((l.dropWhile isWs).reverse.dropWhile isWs).reverse

/-- Split a character list on a separator character, keeping empty
segments (Python str.split with an explicit separator). -/
def splitOnChar (sep : Char) : List Char → List (List Char)
  | [] => [[]]
  | c :: rest =>
    let r := splitOnChar sep rest
    if c = sep then [] :: r
    else
      match r with
      | h :: t => (c :: h) :: t
      | [] => [[c]]

/-- Character class [A-Za-z0-9] opening a requirement name. -/
def isNameStart (c : Char) : Bool := c.isAlphanum

/-- Character class [-A-Za-z0-9._] continuing a requirement name. -/
def isNameChar (c : Char) : Bool := c.isAlphanum || c = '-' || c = '.' || c = '_'

/-- Character class [<>=!~] opening a version specifier. -/
def isSpecStart (c : Char) : Bool :=
  c = '<' || c = '>' || c = '=' || c = '!' || c = '~'

/-- RequirementsTxtSource.REQUIREMENT_PATTERN from resolver.py, compiled
to a deterministic matcher (none of the optional groups of that regex
ever needs backtracking: each group opens with a character class disjoint
from what the following groups accept). Returns the name, extras and
specifier captures on success. -/
def matchReq (l : List Char) : Option (List Char × Option (List Char) × Option (List Char)) :=
  match l with
  | [] => none
  | c :: rest =>
    if isNameStart c then
      let nm := c :: rest.takeWhile isNameChar
      let r1 := rest.dropWhile isNameChar
      let ex :=
        match r1 with
        | '[' :: tl =>
          let inner := tl.takeWhile (fun d => !(d = ']'))
          match tl.dropWhile (fun d => !(d = ']')) with
          | ']' :: tl2 => if inner.isEmpty then (none, r1) else (some inner, tl2)
          | _ => (none, r1)
        | _ => (none, r1)
      let sp :=
        match ex.2.dropWhile isWs with
        | d :: tl =>
          if isSpecStart d then
            (some (d :: tl.takeWhile (fun e => !(e = ';' || e = '#'))),
             tl.dropWhile (fun e => !(e = ';' || e = '#')))
          else (none, ex.2)
        | [] => (none, ex.2)
      let r4 :=
        match sp.2.dropWhile isWs with
        | ';' :: tl => tl.dropWhile (fun e => !(e = '#'))
        | _ => sp.2
      let r5 :=
        match r4.dropWhile isWs with
        | '#' :: _ => ([] : List Char)
        | _ => r4
      if r5.isEmpty then some (nm, ex.1, sp.1) else none
    else none

/-- Character class [0-9.] accepted by the exact-version capture. -/
def isVerChar (c : Char) : Bool := c.isDigit || c = '.'

/-- re.search of the exact-version pattern (two equals signs, optional
whitespace, then at least one digit or dot) inside a specifier string:
leftmost match, greedy capture. -/
def verSearch : List Char → Option String
  | [] => none
  | c :: rest =>
    if c = '=' then
      match rest with
      | '=' :: rest2 =>
        let ds := (rest2.dropWhile isWs).takeWhile isVerChar
        if ds.isEmpty then verSearch rest else some (String.mk ds)
      | _ => verSearch rest
    else verSearch rest

/-- Characters on which the lenient fallback of _parse_requirement splits. -/
def isLenientSplitChar (c : Char) : Bool :=
  c = '<' || c = '>' || c = '=' || c = '!' || c = '~' || c = '[' || c = ']' || c = ';'

/-- RequirementsTxtSource._parse_requirement from resolver.py: skip
URL and VCS lines, match the strict pattern (extracting extras and an
exact == version), and fall back to a lenient name-only parse; returns
none when the line yields nothing. It never raises. -/
def parseRequirement (line : List Char) : Option PackageIdentifier :=
  if containsSeq line ("://".toList) || leadsWith line ("git+".toList) then none
  else
    match matchReq line with
    | some (nm, exOpt, spOpt) =>
      let extras :=
        match exOpt with
        | some inner => (splitOnChar ',' inner).map (fun e => String.mk (trimChars e))
        | none => []
      let version :=
        match spOpt with
        | some sp => verSearch sp
        | none => none
      some { name := String.mk nm, version := version, extras := extras }
    | none =>
      let nm := trimChars (line.takeWhile (fun c => !(isLenientSplitChar c)))
      if nm.isEmpty then none else some { name := String.mk nm }

/-- A file system for the parser: association list from canonical
absolute path strings to file contents. -/
def FileSystem : Type := List (String × String)

/-- Path components of an absolute path string. -/
def pathComps (p : String) : List String :=
  (splitOnChar '/' p.toList).map String.mk

/-- Render components back into an absolute path string. -/
def renderAbs (comps : List String) : String :=
  comps.foldl (fun acc c => acc ++ "/" ++ c) ""

/-- Canonicalize an absolute path, resolving "." and ".." segments the
way the operating system does when the parser calls exists() and
read_text(). -/
def normPath (p : String) : String :=
  renderAbs ((pathComps p).foldl step [])
where
  step (acc : List String) (c : String) : List String :=
    if c = "" ∨ c = "." then acc
    else if c = ".." then acc.dropLast
    else acc ++ [c]

/-- pathlib Path.parent: drop the last path component (syntactically). -/
def parentDir (p : String) : String :=
  renderAbs (((pathComps p).filter (fun c => !(c = ""))).dropLast)

/-- pathlib `/` join: an absolute right operand replaces the left. -/
def joinPath (parent child : String) : String :=
  if leadsWith child.toList ['/'] then child else parent ++ "/" ++ child

/-- Look a path up in the file system, canonicalizing first (models the
operating system resolving the path on open). -/
def fsRead (fs : FileSystem) (p : String) : Option String :=
  match fs.find? (fun kv => kv.1 = normPath p) with
  | some kv => some kv.2
  | none => none

/-- Error outcomes of RequirementsTxtSource.parse: ParsingError (with the
offending path and a detail message) from exceptions.py, or the
interpreter RecursionError raised when the call stack is exhausted.
The function has no way to produce a ValidationError. -/
inductive ParseOutcomeError where
  | parsingErr (path : String) (details : String)
  | recursionLimit
  deriving DecidableEq, Repr

/-- One line of the first pass of RequirementsTxtSource.parse: the
accumulator carries the packages parsed so far and the include files
collected so far (includes are only recorded when the joined path
exists). -/
def lineStep (fs : FileSystem) (path : String)
    (acc : List PackageIdentifier × List String) (line : List Char) :
    List PackageIdentifier × List String :=
  if line.isEmpty || leadsWith line ("#".toList) then acc
  else if leadsWith line ("-r ".toList) || leadsWith line ("--requirement ".toList) then
    let includeStr := String.mk (trimChars ((line.dropWhile (fun c => !(isWs c))).dropWhile isWs))
    let includeFile := joinPath (parentDir path) includeStr
    if (fsRead fs includeFile).isSome then (acc.1, acc.2 ++ [includeFile]) else acc
  else if leadsWith line ("-e ".toList) || leadsWith line ("--editable ".toList) then acc
  else if leadsWith line ("-".toList) then acc
  else
    match parseRequirement line with
    | some pkg => (acc.1 ++ [pkg], acc.2)
    | none => acc

/-- The include loop at the end of RequirementsTxtSource.parse: parse
each included file with the supplied recursive call, silently skipping a
ParsingError and propagating any other error (a RecursionError is not
caught by the `except ParsingError` handler). -/
def runIncludes (recur : String → Except ParseOutcomeError (List PackageIdentifier)) :
    List String → List PackageIdentifier → Except ParseOutcomeError (List PackageIdentifier)
  | [], acc => .ok acc
  | f :: rest, acc =>
    match recur f with
    | .ok ps => runIncludes recur rest (acc ++ ps)
    | .error (.parsingErr _ _) => runIncludes recur rest acc
    | .error e => .error e

/-- The body of RequirementsTxtSource.parse for one call frame: read the
file (an OSError becomes a ParsingError), walk the stripped lines, and
then process the collected includes. -/
def parseBody (fs : FileSystem)
    (recur : String → Except ParseOutcomeError (List PackageIdentifier))
    (path : String) : Except ParseOutcomeError (List PackageIdentifier) :=
  match fsRead fs path with
  | none => .error (.parsingErr path "Failed to read file")
  | some content =>
    let lines := (splitOnChar '\n' content.toList).map trimChars
    let acc := lines.foldl (lineStep fs path) ([], [])
    runIncludes recur acc.2 acc.1

/-- RequirementsTxtSource.parse from resolver.py, with the Python call
stack modelled as fuel: fuel zero is the interpreter raising
RecursionError. The source performs no depth accounting of its own. -/
def RequirementsTxtSource.parse (fs : FileSystem) (fuel : Nat) :
    String → Except ParseOutcomeError (List PackageIdentifier) :=
  @Nat.rec (fun _ => String → Except ParseOutcomeError (List PackageIdentifier))
    (fun _ => .error .recursionLimit)
    (fun _ recur => parseBody fs recur)
    fuel

/-- Remove later duplicates from a list, keeping first occurrences
(membership model of Python set construction; the element order of a
Python set is unspecified, and every property proved below about merged
extras is stated via membership only). -/
def listDedup : List String → List String
  | [] => []
  | x :: xs => x :: (listDedup xs).filter (fun y => !(y = x))

/-- tuple(set(a) | set(b)) in DependencyResolver._deduplicate. -/
def unionExtras (a b : List String) : List String :=
  listDedup (a ++ b)

/-- One iteration of the loop in DependencyResolver._deduplicate: the
dict is an insertion-ordered association list keyed by normalized name.
When the key is already present, the entry captured at loop entry stays
the merge base: a version on the new entry replaces a missing one, and
when either side carries extras the entry is rebuilt from the base name,
`existing.version or pkg.version`, and the union of both extras sets. -/
def dedupInsert (seen : List (String × PackageIdentifier)) (pkg : PackageIdentifier) :
    List (String × PackageIdentifier) :=
  match seen.find? (fun kv => kv.1 = pkg.normalizedName) with
  | none => seen ++ [(pkg.normalizedName, pkg)]
  | some kv =>
    let seen1 :=
      if strTruthy pkg.version && !(strTruthy kv.2.version) then
        assocSet seen pkg.normalizedName pkg
      else seen
    if !pkg.extras.isEmpty || !kv.2.extras.isEmpty then
      assocSet seen1 pkg.normalizedName
        { name := kv.2.name,
          version := pyOrStr kv.2.version pkg.version,
          extras := unionExtras kv.2.extras pkg.extras }
    else seen1
where
  assocSet : List (String × PackageIdentifier) → String → PackageIdentifier →
      List (String × PackageIdentifier)
    | [], k, v => [(k, v)]
    | (k₀, v₀) :: rest, k, v =>
      if k₀ = k then (k₀, v) :: rest else (k₀, v₀) :: assocSet rest k v

/-- DependencyResolver._deduplicate from resolver.py: fold the packages
through the seen-dict and return its values in insertion order. -/
def deduplicate (packages : List PackageIdentifier) : List PackageIdentifier :=
  (packages.foldl dedupInsert []).map (fun kv => kv.2)

/-- A Python dict produced for or consumed by Vulnerability
serialization: every field optional, since from_dict reads each key with
a .get default. There is no key for is_fixed_in_installed_version: the
source deliberately omits it from to_dict. -/
structure VulnDict where
  id : Option String := none
  severity : Option String := none
  title : Option String := none
  description : Option String := none
  affected_versions : Option String := none
  fixed_version : Option String := none
  published : Option String := none
  references : Option (List String) := none
  cvss_score : Option ℚ := none
  deriving DecidableEq, Repr

/-- Vulnerability.to_dict from models.py (datetime isoformat modelled as
the identity on the ISO-string field). -/
def Vulnerability.toDict (v : Vulnerability) : VulnDict :=
  { id := some v.id,
    severity := some v.severity.value,
    title := some v.title,
    description := some v.description,
    affected_versions := some v.affected_versions,
    fixed_version := v.fixed_version,
    published := v.published,
    references := some v.references,
    cvss_score := v.cvss_score }

/-- Vulnerability.from_dict from models.py: .get defaults for missing
keys, RiskLevel enum lookup (none models the ValueError on an invalid
severity value), a truthiness-guarded date parse, and
is_fixed_in_installed_version hard-wired to False because the flag is
computed at runtime and never cached. -/
def Vulnerability.fromDict (d : VulnDict) : Option Vulnerability :=
  match RiskLevel.ofValue (d.severity.getD "medium") with
  | none => none
  | some sev =>
    some { id := d.id.getD "",
           severity := sev,
           title := d.title.getD "",
           description := d.description.getD "",
           affected_versions := d.affected_versions.getD "*",
           fixed_version := d.fixed_version,
           published :=
             (match d.published with
              | some s => if s = "" then none else some s
              | none => none),
           references := d.references.getD [],
           cvss_score := d.cvss_score,
           is_fixed_in_installed_version := false }

/-- AlternativePackage dataclass from models.py. -/
structure AlternativePackage where
  package : PackageIdentifier
  health_score : ℚ
  migration_effort : String
  rationale : String
  api_compatibility : ℚ := 0
  deriving DecidableEq, Repr

/-- HealthScore dataclass from models.py (scores as exact rationals; the
calculated_at / data_freshness timestamps are not read by any embedded
operation and are omitted). -/
structure HealthScore where
  overall : ℚ
  grade : HealthGrade
  security_score : ℚ := 100
  maintenance_score : ℚ := 50
  community_score : ℚ := 50
  popularity_score : ℚ := 50
  code_quality_score : ℚ := 50
  license_score : ℚ := 50
  maintenance_status : MaintenanceStatus := .stable
  vulnerabilities : List Vulnerability := []
  risk_factors : List String := []
  positive_factors : List String := []
  confidence : ConfidenceLevel := .high
  deriving DecidableEq, Repr

/-- DependencyReport dataclass from models.py. -/
structure DependencyReport where
  package : PackageIdentifier
  health : HealthScore
  pypi : Option PyPIMetadata := none
  repository : Option RepositoryMetadata := none
  alternatives : List AlternativePackage := []
  update_available : Option String := none
  is_direct : Bool := true
  dependents : List String := []
  deriving DecidableEq, Repr

/-- The package sub-dict of DependencyReport.to_dict. -/
structure PackageDict where
  name : String
  version : Option String
  extras : List String
  deriving DecidableEq, Repr

/-- The per-alternative sub-dict of DependencyReport.to_dict. -/
structure AltDict where
  name : String
  health_score : ℚ
  migration_effort : String
  rationale : String
  deriving DecidableEq, Repr

/-- The health sub-dict of DependencyReport.to_dict. Only the four
weighted component scores are serialized, and each vulnerability entry
carries id, severity, title and fixed_version only. -/
structure HealthDict where
  overall : ℚ
  grade : String
  security_score : ℚ
  maintenance_score : ℚ
  community_score : ℚ
  popularity_score : ℚ
  maintenance_status : String
  vulnerabilities : List VulnDict
  risk_factors : List String
  positive_factors : List String
  deriving DecidableEq, Repr

/-- The dict produced by DependencyReport.to_dict. -/
structure ReportDict where
  package : PackageDict
  health : HealthDict
  update_available : Option String
  is_direct : Bool
  alternatives : List AltDict
  deriving DecidableEq, Repr

/-- The vulnerability entry DependencyReport.to_dict emits: a dict with
the four keys id, severity, title, fixed_version (and in particular no
is_fixed_in_installed_version key). -/
def reportVulnEntry (v : Vulnerability) : VulnDict :=
  { id := some v.id,
    severity := some v.severity.value,
    title := some v.title,
    fixed_version := v.fixed_version }

/-- DependencyReport.to_dict from models.py. -/
def DependencyReport.toDict (r : DependencyReport) : ReportDict :=
  { package := { name := r.package.name, version := r.package.version, extras := r.package.extras },
    health :=
      { overall := r.health.overall,
        grade := r.health.grade.value,
        security_score := r.health.security_score,
        maintenance_score := r.health.maintenance_score,
        community_score := r.health.community_score,
        popularity_score := r.health.popularity_score,
        maintenance_status := r.health.maintenance_status.value,
        vulnerabilities := r.health.vulnerabilities.map reportVulnEntry,
        risk_factors := r.health.risk_factors,
        positive_factors := r.health.positive_factors },
    update_available := r.update_available,
    is_direct := r.is_direct,
    alternatives := r.alternatives.map (fun a =>
      { name := a.package.name, health_score := a.health_score,
        migration_effort := a.migration_effort, rationale := a.rationale }) }

theorem riskLevel_ofValue_value (sev : RiskLevel) : RiskLevel.ofValue sev.value = some sev := by
  cases sev <;> rfl

theorem security_deduction_split (vulns : List Vulnerability) :
    ((vulns.filter (fun v => v.is_open)).map (fun v => vulnDeduction v.severity)).sum
      + ((vulns.filter (fun v => v.is_fixed_in_installed_version)).map
          (fun v => vulnDeduction v.severity * (1 / 10))).sum
    = (vulns.map (fun v =>
        if v.is_open then vulnDeduction v.severity else vulnDeduction v.severity / 10)).sum := by
  induction vulns with
  | nil => simp
  | cons v t ih =>
    cases hf : v.is_fixed_in_installed_version
    · have ho : v.is_open = true := by simp [Vulnerability.is_open, hf]
      simp only [List.filter_cons, List.map_cons, List.sum_cons, ho, hf, if_true, if_false,
        Bool.false_eq_true, ite_true, ite_false]
      rw [← ih]; ring
    · have ho : v.is_open = false := by simp [Vulnerability.is_open, hf]
      simp only [List.filter_cons, List.map_cons, List.sum_cons, ho, hf, if_true, if_false,
        Bool.false_eq_true, ite_true, ite_false]
      rw [← ih]; ring

/-- C1. The security sub-score is 100 for an empty vulnerability list and
otherwise max(0, 100 − totalDeduction), where an open vulnerability
deducts its full severity weight (critical 40, high 25, medium 10, low 5,
info 1) and a fixed one deducts a tenth of that weight; one open medium
scores 90, one open critical plus one open high scores 35, and one fixed
critical scores 96. -/
theorem security_score_spec (vulns : List Vulnerability) :
    (calculateSecurityScore vulns =
      if vulns = [] then 100
      else max 0 (100 - (vulns.map (fun v =>
        if v.is_open then vulnDeduction v.severity else vulnDeduction v.severity / 10)).sum))
    ∧ calculateSecurityScore
        [{ id := "V1", severity := .medium, title := "t", description := "d",
           affected_versions := "*" }] = 90
    ∧ calculateSecurityScore
        [{ id := "V1", severity := .critical, title := "t", description := "d",
           affected_versions := "*" },
         { id := "V2", severity := .high, title := "t", description := "d",
           affected_versions := "*" }] = 35
    ∧ calculateSecurityScore
        [{ id := "V1", severity := .critical, title := "t", description := "d",
           affected_versions := "*", is_fixed_in_installed_version := true }] = 96 := by
  refine ⟨?_,
    by norm_num [calculateSecurityScore, Vulnerability.is_open, vulnDeduction],
    by norm_num [calculateSecurityScore, Vulnerability.is_open, vulnDeduction],
    by norm_num [calculateSecurityScore, Vulnerability.is_open, vulnDeduction]⟩
  by_cases h : vulns = []
  · subst h; simp [calculateSecurityScore]
  · have hne : vulns.isEmpty = false := by simpa [List.isEmpty_iff] using h
    simp only [calculateSecurityScore, hne, Bool.false_eq_true, if_false, if_neg h]
    rw [security_deduction_split]

theorem sum_map_div (l : List (String × ℚ)) (t : ℚ) :
    (l.map (fun kv => kv.2 / t)).sum = dictValuesSum l / t := by
  induction l with
  | nil => simp [dictValuesSum]
  | cons a rest ih => simp [dictValuesSum, add_div, ih]

/-- C4 (amended). Whenever the merged weight dict (defaults updated with
the caller overrides) has a positive total, the normalized weights sum to
exactly 1; when the merged total is zero or negative the source skips
normalization, so the sum stays at the merged total instead of 1. -/
theorem weights_sum_one_of_pos_total (overrides : List (String × ℚ))
    (h : 0 < dictValuesSum (mergedWeights overrides)) :
    dictValuesSum (initWeights overrides) = 1 := by
  unfold initWeights
  simp only [if_pos h]
  calc dictValuesSum ((mergedWeights overrides).map
          (fun kv => (kv.1, kv.2 / dictValuesSum (mergedWeights overrides))))
      = ((mergedWeights overrides).map
          (fun kv => kv.2 / dictValuesSum (mergedWeights overrides))).sum := by
        rw [dictValuesSum, List.map_map]; rfl
    _ = dictValuesSum (mergedWeights overrides) / dictValuesSum (mergedWeights overrides) :=
        sum_map_div _ _
    _ = 1 := div_self (ne_of_gt h)

/-- C4 (counterexample). An override of security to −0.65 makes the
merged values sum to zero, so HealthCalculator.__init__ skips the
normalization and the weights sum to 0, not 1. -/
theorem weights_zero_total_cex :
    dictValuesSum (initWeights [("security", -(13 / 20))]) = 0
    ∧ ¬ dictValuesSum (initWeights [("security", -(13 / 20))]) = 1 := by
  norm_num +decide [initWeights, mergedWeights, dictUpdate, dictSet, dictValuesSum, defaultWeights]

/-- C4 (witness). The spec example override of security and maintenance
to 0.5 each has positive merged total and normalizes to sum 1. -/
theorem weights_sum_one_witness :
    0 < dictValuesSum (mergedWeights [("security", 1 / 2), ("maintenance", 1 / 2)])
    ∧ dictValuesSum (initWeights [("security", 1 / 2), ("maintenance", 1 / 2)]) = 1 :=
  ⟨by norm_num +decide [mergedWeights, dictUpdate, dictSet, dictValuesSum, defaultWeights],
   weights_sum_one_of_pos_total _
     (by norm_num +decide [mergedWeights, dictUpdate, dictSet, dictValuesSum, defaultWeights])⟩

/-- C8 (amended). With a degenerate range (maxVal equal to minVal)
neither normalizer ever reaches its interpolation branch (so no division
by zero occurs); both behave as the step function that returns 0 for
value ≤ minVal and maxScore for value > minVal. At value == minVal the
result is 0, not maxScore. -/
theorem degenerate_range_step (log10 : ℚ → ℚ) (value minVal maxScore : ℚ) :
    logNormalize log10 value minVal minVal maxScore = (if value ≤ minVal then 0 else maxScore)
    ∧ linearNormalize value minVal minVal maxScore = (if value ≤ minVal then 0 else maxScore) := by
  refine ⟨?_, ?_⟩
  · unfold logNormalize
    by_cases hv : value ≤ minVal
    · simp [hv]
    · simp [hv, le_of_lt (lt_of_not_ge hv)]
  · unfold linearNormalize
    by_cases hv : value ≤ minVal
    · simp [hv]
    · simp [hv, le_of_lt (lt_of_not_ge hv)]

/-- C8 (counterexample). At value == minVal == maxVal == 5 with maxScore
10, both normalizers return 0, not the maxScore the claim requires for
value ≥ minVal. -/
theorem degenerate_range_cex :
    linearNormalize 5 5 5 10 = 0
    ∧ ¬ linearNormalize 5 5 5 10 = 10
    ∧ logNormalize (fun x => x) 5 5 5 10 = 0 := by
  norm_num [linearNormalize, logNormalize]

/-- C7 (amended). normalized_name is the lowercase name with every
underscore individually replaced by a hyphen: dots are left unchanged and
runs of underscores become runs of hyphens, so "Foo.Bar" gives "foo.bar"
and "foo__bar" gives "foo--bar". -/
theorem normalized_name_underscores_only (p : PackageIdentifier) :
    p.normalizedName =
      String.mk (p.name.toList.map (fun c => if c.toLower = '_' then '-' else c.toLower))
    ∧ PackageIdentifier.normalizedName { name := "Foo.Bar" } = "foo.bar"
    ∧ PackageIdentifier.normalizedName { name := "foo__bar" } = "foo--bar" := by
  refine ⟨?_, by decide, by decide⟩
  simp [PackageIdentifier.normalizedName, pyReplaceChar, pyLower, pyLowerChar, List.map_map,
    Function.comp_def]

/-- C7 (counterexample). The claim maps "Foo.Bar" to "foo-bar"; the code
leaves the dot alone and produces "foo.bar", differing from the collapsed
form the spec describes. -/
theorem normalized_name_cex :
    ¬ PackageIdentifier.normalizedName { name := "Foo.Bar" } = "foo-bar"
    ∧ PackageIdentifier.normalizedName { name := "Foo.Bar" } = "foo.bar"
    ∧ specNormalizedName { name := "Foo.Bar" } = "foo-bar" := by
  refine ⟨by decide, by decide, by decide⟩

/-- C5. The license checks run permissive, then weak-copyleft, then
strong-copyleft: any derived identifier matching the weak-copyleft set
(LGPL-2.1, LGPL-3.0, MPL-2.0) without a permissive match scores 75 and
never 60; a missing identifier scores 30; a non-empty identifier
matching none of the sets scores 50. -/
theorem license_score_order (pypi : Option PyPIMetadata) (repo : Option RepositoryMetadata) :
    (∀ s, derivedLicense pypi repo = some s →
      licMatches (normalizeLicense s) LICENSE_WEAK_COPYLEFT = true →
      licMatches (normalizeLicense s) LICENSE_PERMISSIVE = false →
      calculateLicenseScore pypi repo = 75)
    ∧ (derivedLicense pypi repo = none → calculateLicenseScore pypi repo = 30)
    ∧ (∀ s, derivedLicense pypi repo = some s →
      licMatches (normalizeLicense s) LICENSE_PERMISSIVE = false →
      licMatches (normalizeLicense s) LICENSE_WEAK_COPYLEFT = false →
      licMatches (normalizeLicense s) LICENSE_COPYLEFT = false →
      calculateLicenseScore pypi repo = 50) := by
  refine ⟨?_, ?_, ?_⟩
  · intro s hs hw hp
    unfold calculateLicenseScore
    rw [hs]
    simp [hw, hp]
  · intro h
    unfold calculateLicenseScore
    rw [h]
  · intro s hs hp hw hc
    unfold calculateLicenseScore
    rw [hs]
    simp [hp, hw, hc]

/-- C5 (witness). A repository license of LGPL-3.0 scores 75, no license
at all scores 30, and the unrecognized WTFPL scores 50. -/
theorem license_score_witness :
    calculateLicenseScore none (some { license := some "LGPL-3.0" }) = 75
    ∧ calculateLicenseScore none none = 30
    ∧ calculateLicenseScore (some { license := some "WTFPL" }) none = 50 :=
  ⟨(license_score_order none (some { license := some "LGPL-3.0" })).1 "LGPL-3.0" rfl
      (by decide) (by decide),
   (license_score_order none none).2.1 rfl,
   (license_score_order (some { license := some "WTFPL" }) none).2.2 "WTFPL" rfl
      (by decide) (by decide) (by decide)⟩

theorem parse_zero (fs : FileSystem) (p : String) :
    RequirementsTxtSource.parse fs 0 p = .error .recursionLimit := rfl

theorem parse_succ (fs : FileSystem) (n : Nat) (p : String) :
    RequirementsTxtSource.parse fs (n + 1) p
      = parseBody fs (RequirementsTxtSource.parse fs n) p := rfl

/-- C2 (code evaluated at the failing input). A requirements file that
includes itself via the -r directive makes parse recurse once per
remaining stack frame and end in RecursionError, for every stack budget:
the source has no include-depth cap (validation.py defines
MAX_INCLUDE_DEPTH and check_recursion_depth for exactly this, but
resolver.py never calls them), and the RecursionError is not a
ParsingError, so the `except ParsingError` handler does not contain it. -/
theorem self_include_never_terminates (fuel : Nat) :
    RequirementsTxtSource.parse [("/proj/requirements.txt", "-r requirements.txt")] fuel
      "/proj/requirements.txt" = .error .recursionLimit := by
  induction fuel with
  | zero => rfl
  | succ n ih =>
    rw [parse_succ]
    rw [show parseBody [("/proj/requirements.txt", "-r requirements.txt")]
          (RequirementsTxtSource.parse [("/proj/requirements.txt", "-r requirements.txt")] n)
          "/proj/requirements.txt"
        = runIncludes
            (RequirementsTxtSource.parse [("/proj/requirements.txt", "-r requirements.txt")] n)
            ["/proj/requirements.txt"] [] from rfl]
    simp [runIncludes, ih]

/-- C3 (code evaluated at the failing input). An include directive whose
path resolves outside the project directory is silently followed: the
external file is parsed and its package is returned, and no Validation
error is raised (resolver.py never calls validate_include_path; the
ParseOutcomeError type of the embedded parse has no validation variant
because the source cannot produce one). -/
theorem traversal_include_followed :
    RequirementsTxtSource.parse
        [("/proj/requirements.txt", "-r ../outside.txt"), ("/outside.txt", "evil==1.0")]
        2 "/proj/requirements.txt"
      = .ok [{ name := "evil", version := some "1.0", extras := [] }]
    ∧ normPath (joinPath (parentDir "/proj/requirements.txt") "../outside.txt")
      = "/outside.txt" := by
  exact ⟨rfl, rfl⟩

theorem runIncludes_ok_or_limit
    (recur : String → Except ParseOutcomeError (List PackageIdentifier))
    (files : List String) (acc : List PackageIdentifier) :
    (∃ l, runIncludes recur files acc = .ok l)
      ∨ runIncludes recur files acc = .error .recursionLimit := by
  induction files generalizing acc with
  | nil => exact .inl ⟨acc, rfl⟩
  | cons f rest ih =>
    simp only [runIncludes]
    cases hr : recur f with
    | ok ps => exact ih (acc ++ ps)
    | error e =>
      cases e with
      | parsingErr p d => exact ih acc
      | recursionLimit => exact .inr rfl

/-- C10. When the root file is readable, RequirementsTxtSource.parse
either returns a list or dies of stack exhaustion on a cyclic include: a
malformed requirement line is handled by the lenient fallback (or
skipped) and included files that fail with a ParsingError are silently
skipped, so a ParsingError surfaces exactly when the root file itself
cannot be read. -/
theorem parse_readable (fs : FileSystem) (fuel : Nat) (path : String) :
    (∀ content, fsRead fs path = some content →
      (∃ l, RequirementsTxtSource.parse fs (fuel + 1) path = .ok l)
        ∨ RequirementsTxtSource.parse fs (fuel + 1) path = .error .recursionLimit)
    ∧ (fsRead fs path = none →
      RequirementsTxtSource.parse fs (fuel + 1) path
        = .error (.parsingErr path "Failed to read file")) := by
  constructor
  · intro content hc
    rw [parse_succ]
    unfold parseBody
    rw [hc]
    exact runIncludes_ok_or_limit _ _ _
  · intro h
    rw [parse_succ]
    unfold parseBody
    rw [h]

/-- C10 (witness). A readable file whose second line defeats the strict
requirement pattern still parses without a ParsingError. -/
theorem parse_readable_witness :
    (∃ l, RequirementsTxtSource.parse
        [("/a/requirements.txt", "requests==2.28.0\nnot a valid line !!!")] 2
        "/a/requirements.txt" = .ok l)
      ∨ RequirementsTxtSource.parse
        [("/a/requirements.txt", "requests==2.28.0\nnot a valid line !!!")] 2
        "/a/requirements.txt" = .error .recursionLimit :=
  (parse_readable [("/a/requirements.txt", "requests==2.28.0\nnot a valid line !!!")] 1
    "/a/requirements.txt").1 "requests==2.28.0\nnot a valid line !!!" rfl

theorem mem_listDedup (x : String) (l : List String) : x ∈ listDedup l ↔ x ∈ l := by
  induction l with
  | nil => simp [listDedup]
  | cons a t ih =>
    by_cases hx : x = a
    · subst hx; simp [listDedup]
    · simp [listDedup, List.mem_filter, ih, hx]

theorem find?_single_hit (k : String) (v : PackageIdentifier) :
    List.find? (fun kv => kv.1 = k) [(k, v)] = some (k, v) := by
  simp [List.find?]

theorem assocSet_single (k : String) (x m : PackageIdentifier) :
    dedupInsert.assocSet [(k, x)] k m = [(k, m)] := by
  simp [dedupInsert.assocSet]

/-- C6 (amended). Deduplicating two identifiers that share a normalized
name yields a single merged entry: a version is adopted when exactly one
of the two carries a (truthy) version, the merged extras are exactly the
union of both extras sets, and the first-seen entry stays the merge base
(keeping its name spelling) whenever either entry has extras or the new
entry brings no version to a version-less base — but when the new entry
alone carries a version and neither entry has extras, the loop assigns
seen[key] = pkg and the new entry replaces the stored one wholesale,
taking its name spelling. -/
theorem dedup_merge_two (p q : PackageIdentifier) (h : p.normalizedName = q.normalizedName) :
    ∃ m, deduplicate [p, q] = [m]
      ∧ (strTruthy p.version = true → strTruthy q.version = false → m.version = p.version)
      ∧ (strTruthy q.version = true → strTruthy p.version = false → m.version = q.version)
      ∧ (∀ e, e ∈ m.extras ↔ e ∈ p.extras ∨ e ∈ q.extras)
      ∧ ((!q.extras.isEmpty || !p.extras.isEmpty) = true → m.name = p.name)
      ∧ (p.extras = [] → q.extras = [] →
          strTruthy q.version = true → strTruthy p.version = false → m = q)
      ∧ (p.extras = [] → q.extras = [] →
          (strTruthy q.version && !strTruthy p.version) = false → m = p) := by
  have e1 : deduplicate [p, q]
      = (dedupInsert [(p.normalizedName, p)] q).map (fun kv => kv.2) := rfl
  rw [h] at e1
  unfold dedupInsert at e1
  rw [find?_single_hit] at e1
  by_cases hex : (!q.extras.isEmpty || !p.extras.isEmpty) = true
  · refine ⟨{ name := p.name, version := pyOrStr p.version q.version,
              extras := unionExtras p.extras q.extras }, ?_, ?_, ?_, ?_, ?_, ?_, ?_⟩
    · rw [e1]
      by_cases hv : (strTruthy q.version && !strTruthy p.version) = true
      · simp [hv, hex, assocSet_single]
      · simp [hv, hex, assocSet_single]
    · intro h1 _; simp [pyOrStr, h1]
    · intro _ h2; simp [pyOrStr, h2]
    · intro e; simp [unionExtras, mem_listDedup]
    · intro _; rfl
    · intro hpe hqe _ _
      rw [hpe, hqe] at hex
      simp at hex
    · intro hpe hqe _
      rw [hpe, hqe] at hex
      simp at hex
  · have hboth : q.extras.isEmpty = true ∧ p.extras.isEmpty = true := by
      constructor <;> by_contra hb <;>
        simp [Bool.not_eq_true] at hb <;> simp [hb] at hex
    have hqe : q.extras = [] := by simpa [List.isEmpty_iff] using hboth.1
    have hpe : p.extras = [] := by simpa [List.isEmpty_iff] using hboth.2
    by_cases hv : (strTruthy q.version && !strTruthy p.version) = true
    · refine ⟨q, ?_, ?_, ?_, ?_, ?_, ?_, ?_⟩
      · rw [e1]; simp [hv, hex, assocSet_single]
      · intro h1 _
        simp [h1] at hv
      · intro _ _; rfl
      · intro e; simp [hqe, hpe]
      · intro hc; exact absurd hc hex
      · intro _ _ _ _; rfl
      · intro _ _ hc; simp [hc] at hv
    · refine ⟨p, ?_, ?_, ?_, ?_, ?_, ?_, ?_⟩
      · rw [e1]; simp [hv, hex]
      · intro _ _; rfl
      · intro h1 h2
        exact absurd (by simp [h1, h2]) hv
      · intro e; simp [hqe, hpe]
      · intro hc; exact absurd hc hex
      · intro _ _ h1 h2
        exact absurd (by simp [h1, h2]) hv
      · intro _ _ _; rfl

/-- C6 (counterexample). The claim says the merge keeps the first-seen
entry as base, but when the new entry alone carries a version and
neither entry has extras, the loop replaces the stored entry wholesale:
foo_bar followed by foo-bar==1.0 (the same normalized name) merges to an
entry named foo-bar, not the first-seen spelling foo_bar. -/
theorem dedup_first_seen_base_cex :
    (deduplicate [{ name := "foo_bar" },
        { name := "foo-bar", version := some "1.0" }]).map (fun m => m.name)
      = ["foo-bar"]
    ∧ ¬ (deduplicate [{ name := "foo_bar" },
        { name := "foo-bar", version := some "1.0" }]).map (fun m => m.name)
      = ["foo_bar"] := by
  refine ⟨by decide, by decide⟩

/-- C6 (witness). Parsing requests without a version and then
requests==2.28.0 merges to one entry carrying 2.28.0, and
requests[security] followed by requests[socks] merges to one entry whose
extras contain both. -/
theorem dedup_merge_two_witness :
    (deduplicate [{ name := "requests" }, { name := "requests", version := some "2.28.0" }]).map
        (fun m => m.version) = [some "2.28.0"]
    ∧ ∃ m, deduplicate [{ name := "requests", extras := ["security"] },
          { name := "requests", extras := ["socks"] }] = [m]
        ∧ "security" ∈ m.extras ∧ "socks" ∈ m.extras := by
  constructor
  · obtain ⟨m, hm, _, hv, _, _, _, _⟩ :=
      dedup_merge_two { name := "requests" } { name := "requests", version := some "2.28.0" } rfl
    rw [hm]
    simp [hv (by decide) (by decide)]
  · obtain ⟨m, hm, _, _, he, _, _, _⟩ :=
      dedup_merge_two { name := "requests", extras := ["security"] }
        { name := "requests", extras := ["socks"] } rfl
    exact ⟨m, hm, (he "security").mpr (by simp), (he "socks").mpr (by simp)⟩

theorem fromDict_reportVulnEntry (w : Vulnerability) :
    Vulnerability.fromDict (reportVulnEntry w)
      = some { id := w.id, severity := w.severity, title := w.title, description := "",
               affected_versions := "*", fixed_version := w.fixed_version,
               published := none, references := [], cvss_score := none,
               is_fixed_in_installed_version := false } := by
  simp [Vulnerability.fromDict, reportVulnEntry, riskLevel_ofValue_value]

theorem reportVulns_roundtrip (l : List Vulnerability) :
    ((l.map reportVulnEntry).filterMap Vulnerability.fromDict).map
      (fun w => (w.id, w.severity, w.is_fixed_in_installed_version))
    = l.map (fun w => (w.id, w.severity, false)) := by
  induction l with
  | nil => rfl
  | cons a t ih =>
    simp only [List.filterMap_map] at ih
    simp [fromDict_reportVulnEntry, ih]

theorem reportVulns_ids (l : List Vulnerability) :
    (l.map reportVulnEntry).map (fun d => d.id) = l.map (fun w => some w.id) := by
  rw [List.map_map]; rfl

theorem reportVulns_sevs (l : List Vulnerability) :
    (l.map reportVulnEntry).map (fun d => d.severity)
      = l.map (fun w => some w.severity.value) := by
  rw [List.map_map]; rfl

/-- C9. The exported dict of a DependencyReport preserves the overall
score, the grade string, and every vulnerability id and severity; feeding
each serialized vulnerability entry back through Vulnerability.from_dict
recovers the same id and severity with is_fixed_in_installed_version
defaulting to false (the flag has no key in the serialized form), and the
direct Vulnerability to_dict/from_dict round trip does the same. -/
theorem report_roundtrip (r : DependencyReport) (v : Vulnerability) :
    (r.toDict).health.overall = r.health.overall
    ∧ (r.toDict).health.grade = r.health.grade.value
    ∧ ((r.toDict).health.vulnerabilities.map (fun d => d.id))
        = r.health.vulnerabilities.map (fun w => some w.id)
    ∧ ((r.toDict).health.vulnerabilities.map (fun d => d.severity))
        = r.health.vulnerabilities.map (fun w => some w.severity.value)
    ∧ (((r.toDict).health.vulnerabilities.filterMap Vulnerability.fromDict).map
        (fun w => (w.id, w.severity, w.is_fixed_in_installed_version)))
        = r.health.vulnerabilities.map (fun w => (w.id, w.severity, false))
    ∧ (Vulnerability.fromDict v.toDict).map
        (fun w => (w.id, w.severity, w.is_fixed_in_installed_version))
        = some (v.id, v.severity, false) := by
  refine ⟨rfl, rfl, reportVulns_ids _, reportVulns_sevs _, reportVulns_roundtrip _, ?_⟩
  simp [Vulnerability.toDict, Vulnerability.fromDict, riskLevel_ofValue_value]
